import Mathlib

/-
Verification of the usage-aggregation core of the orbital-tech-assignment
backend (FastAPI service under src/backend/app).

The embedding covers:
  * app/services/credit_calculator.py  — credit formulas over exact decimals
    (Python float arithmetic is modelled as exact rational arithmetic; for the
    formula `((len/4)/100)*40` the float pipeline and the exact value agree on
    every string length below 10^13, checked separately, so the model is
    faithful for every representable input);
  * app/clients/orbital_api.py         — report cache, single and batch fetch,
    with the upstream modelled as a deterministic oracle `fetch : Int → Option R`
    (`none` = non-2xx / transport failure) and upstream calls logged in order;
  * app/services/usage_service.py      — the aggregation pass, with Python
    exceptions modelled by `Except` and report JSON bodies modelled as
    string-keyed association lists (Python dicts).
-/

set_option maxHeartbeats 1000000

namespace OrbitalUsage

/-! ## Constants (app/utils/constants.py) -/

def BASE_MODEL_RATE : ℚ := 40

def MINIMUM_CREDITS : ℚ := 1

def CHARACTERS_PER_TOKEN : ℚ := 4

/-! ## Credit calculator (app/services/credit_calculator.py) -/

/-- Python `Decimal.quantize(Decimal("0.01"), rounding=ROUND_HALF_UP)`:
round to two decimal places, ties away from zero. -/
def roundHalfUp2 (x : ℚ) : ℚ :=
  if 0 ≤ x then (⌊x * 100 + 1 / 2⌋ : ℚ) / 100
  else -((⌊(-x) * 100 + 1 / 2⌋ : ℚ) / 100)

/-- Embedding of `calculate_message_credits(text)`: character count, token
estimate `len/4`, `(tokens/100)*40`, round half-up to 2 places, then the
1.00 minimum (applied after rounding). -/
def calculate_message_credits (text : String) : ℚ :=
  let char_count : ℚ := (text.length : ℚ)
  let estimated_tokens := char_count / CHARACTERS_PER_TOKEN
  let credits := roundHalfUp2 ((estimated_tokens / 100) * BASE_MODEL_RATE)
  max credits MINIMUM_CREDITS

/-- Character class kept by `extract_word_characters`: the regex
`[^a-zA-Z'\-]` is deleted, i.e. ASCII letters, apostrophe and hyphen stay. -/
def isWordChar (c : Char) : Bool :=
  ('a' ≤ c && c ≤ 'z') || ('A' ≤ c && c ≤ 'Z') || c == Char.ofNat 39 || c == '-'

/-- Embedding of `extract_word_characters(text)`. -/
def extract_word_characters (text : String) : String :=
  ⟨text.data.filter isWordChar⟩

/-- Embedding of `calculate_message_credits_word_chars_only(text)`. -/
def calculate_message_credits_word_chars_only (text : String) : ℚ :=
  calculate_message_credits (extract_word_characters text)

/-- Embedding of `get_report_credits(credit_cost)`: an integer quantized to
two decimal places is exact, so the value is the integer itself (no minimum). -/
def get_report_credits (credit_cost : Int) : ℚ :=
  (credit_cost : ℚ)

/-- ASCII letter predicate, used to state the pure-letters / non-letter
dichotomy of the spec. -/
def isAsciiLetter (c : Char) : Bool :=
  ('a' ≤ c && c ≤ 'z') || ('A' ≤ c && c ≤ 'Z')

/-! Smoke tests mirroring test_credit_calculator.py. -/

example : calculate_message_credits "Hi" = 1 := by
  have h : ("Hi").length = 2 := by decide
  norm_num [calculate_message_credits, roundHalfUp2, CHARACTERS_PER_TOKEN,
    BASE_MODEL_RATE, MINIMUM_CREDITS, h]

example : roundHalfUp2 (3 / 8) = 38 / 100 := by
  norm_num [roundHalfUp2]

example : extract_word_characters "Hello, world!" = "Helloworld" := by decide

example : get_report_credits 25 = 25 := by norm_num [get_report_credits]

/-- C4: for every non-negative integer `n`, the raw-character credit function
on a string of `4*n` characters returns `max(round_half_up(n * 0.4, 2), 1.00)`
(round-half-up with ties away from zero); the 1.00 minimum is applied after
rounding, and the empty string yields exactly 1.00. -/
theorem C4_text_credits (n : ℕ) (s : String) (h : s.length = 4 * n) :
    calculate_message_credits s = max (roundHalfUp2 ((n : ℚ) * (4 / 10))) 1 ∧
      calculate_message_credits "" = 1 := by
  constructor
  · simp only [calculate_message_credits, MINIMUM_CREDITS, CHARACTERS_PER_TOKEN,
      BASE_MODEL_RATE, h]
    congr 2
    push_cast
    ring
  · norm_num [calculate_message_credits, roundHalfUp2, CHARACTERS_PER_TOKEN,
      BASE_MODEL_RATE, MINIMUM_CREDITS]

/-- Witness for C4 at `n = 2`, `s` of length 8. -/
theorem C4_text_credits_witness :
    (String.mk (List.replicate 8 'a')).length = 4 * 2 ∧
      calculate_message_credits (String.mk (List.replicate 8 'a')) =
        max (roundHalfUp2 ((2 : ℚ) * (4 / 10))) 1 ∧
      calculate_message_credits "" = 1 :=
  ⟨by decide, C4_text_credits 2 (String.mk (List.replicate 8 'a')) (by decide)⟩

/-- C5 counterexample: the claim asserts the two variants diverge on every
input containing a non-letter character; on `"1"` (which contains the
non-letter `'1'`) both return the 1.00 minimum, so they agree. -/
theorem C5_divergence_counterexample :
    (∃ c ∈ ("1").data, isAsciiLetter c = false) ∧
      calculate_message_credits_word_chars_only "1" = calculate_message_credits "1" := by
  refine ⟨⟨'1', by decide, by decide⟩, ?_⟩
  have he : extract_word_characters "1" = "" := by decide
  have h1 : ("1").length = 1 := by decide
  have h0 : ("").length = 0 := by decide
  norm_num [calculate_message_credits_word_chars_only, he, calculate_message_credits,
    roundHalfUp2, CHARACTERS_PER_TOKEN, BASE_MODEL_RATE, MINIMUM_CREDITS, h1, h0]

/-- C5 amended: the two variants agree on every input consisting purely of
ASCII letters; inputs with non-letter characters may diverge (an explicit
divergent input is exhibited) but do not diverge universally. -/
theorem C5_letters_agree_amended :
    (∀ s : String, (∀ c ∈ s.data, isAsciiLetter c = true) →
      calculate_message_credits_word_chars_only s = calculate_message_credits s) ∧
      calculate_message_credits_word_chars_only "aaaaaaaaaaaa!" ≠
        calculate_message_credits "aaaaaaaaaaaa!" := by
  constructor
  · intro s h
    have hf : s.data.filter isWordChar = s.data := by
      rw [List.filter_eq_self]
      intro a ha
      have hl := h a ha
      simp only [isAsciiLetter, isWordChar, Bool.or_eq_true] at hl ⊢
      exact Or.inl (Or.inl hl)
    show calculate_message_credits ⟨s.data.filter isWordChar⟩ = calculate_message_credits s
    rw [hf]
  · have he : extract_word_characters "aaaaaaaaaaaa!" = "aaaaaaaaaaaa" := by decide
    have h13 : ("aaaaaaaaaaaa!").length = 13 := by decide
    have h12 : ("aaaaaaaaaaaa").length = 12 := by decide
    norm_num [calculate_message_credits_word_chars_only, he, calculate_message_credits,
      roundHalfUp2, CHARACTERS_PER_TOKEN, BASE_MODEL_RATE, MINIMUM_CREDITS, h13, h12]

/-- Witness for C5 amended at the pure-letter input `"ab"`. -/
theorem C5_letters_agree_witness :
    calculate_message_credits_word_chars_only "ab" = calculate_message_credits "ab" :=
  C5_letters_agree_amended.1 "ab" (by decide)

/-! ## Report cache and upstream client (app/clients/orbital_api.py)

The upstream is a deterministic oracle `fetch : Int → Option R` — `some body`
models a 2xx response with decoded JSON body, `none` a non-2xx status or
transport failure (a raised exception).  Every upstream report request is
logged, in issue order, in `calls`. -/

/-- Python dict read `d.get(k)` / `d[k]` / `k in d` on a binding list where the
newest binding comes first. -/
def dictGet {κ α : Type _} [BEq κ] : List (κ × α) → κ → Option α
  | [], _ => none
  | (k', v) :: rest, k => if k' == k then some v else dictGet rest k

/-- Python dict write `d[k] = v`: the new binding shadows any older one. -/
def dictPut {κ α : Type _} [BEq κ] (d : List (κ × α)) (k : κ) (v : α) : List (κ × α) :=
  (k, v) :: d

/-- State of an `OrbitalAPIClient`: the report cache plus the log of upstream
report requests issued so far. -/
structure FetchState (R : Type _) where
  cache : List (Int × R)
  calls : List Int
deriving DecidableEq

/-- Embedding of `OrbitalAPIClient.get_report`: on a cache hit return the
cached body with no upstream call; otherwise issue one upstream call (logged),
cache a 2xx body as-is and return it, and on failure raise (`none`) leaving
the cache unmodified. -/
def get_report {R : Type _} (fetch : Int → Option R) (st : FetchState R)
    (report_id : Int) : Option R × FetchState R :=
  match dictGet st.cache report_id with
  | some report => (some report, st)
  | none =>
    match fetch report_id with
    | some report =>
        (some report, ⟨dictPut st.cache report_id report, st.calls ++ [report_id]⟩)
    | none => (none, ⟨st.cache, st.calls ++ [report_id]⟩)

/-- The `asyncio.gather(*tasks, return_exceptions=True)` fan-out over the
uncached ids, one task completion at a time in the scheduled order; a task's
exception is swallowed. -/
def runFetches {R : Type _} (fetch : Int → Option R) (st : FetchState R) :
    List Int → FetchState R
  | [] => st
  | rid :: rest => runFetches fetch (get_report fetch st rid).2 rest

/-- Embedding of `OrbitalAPIClient.get_reports_batch`, parameterized by the
completion schedule `sched` of the concurrent fetches (`asyncio.gather` gives
no ordering guarantee; theorems assume only that `sched` permutes its input).
Deduplicate, partition off the already-cached ids, run the uncached fetches,
then return every requested id resolvable from the cache afterwards. -/
def get_reports_batch_sched {R : Type _} (fetch : Int → Option R) (st : FetchState R)
    (report_ids : List Int) (sched : List Int → List Int) :
    List (Int × R) × FetchState R :=
  let unique_ids := report_ids.dedup
  let to_fetch := unique_ids.filter (fun rid => (dictGet st.cache rid).isNone)
  let st' := runFetches fetch st (sched to_fetch)
  (unique_ids.filterMap (fun rid => (dictGet st'.cache rid).map (fun r => (rid, r))), st')

/-- `get_reports_batch` with the in-order schedule. -/
def get_reports_batch {R : Type _} (fetch : Int → Option R) (st : FetchState R)
    (report_ids : List Int) : List (Int × R) × FetchState R :=
  get_reports_batch_sched fetch st report_ids (fun l => l)

theorem dictGet_dictPut_self {κ α : Type _} [BEq κ] [LawfulBEq κ]
    (d : List (κ × α)) (k : κ) (v : α) : dictGet (dictPut d k v) k = some v := by
  simp [dictGet, dictPut]

theorem dictGet_dictPut_ne {κ α : Type _} [BEq κ] [LawfulBEq κ]
    (d : List (κ × α)) (k k' : κ) (v : α) (h : k ≠ k') :
    dictGet (dictPut d k v) k' = dictGet d k' := by
  simp [dictGet, dictPut, h]

/-- After running the fan-out, an id resolves to its prior cached body, or
else to its fetched body when it was scheduled and its fetch succeeded. -/
theorem runFetches_cache {R : Type _} (fetch : Int → Option R) :
    ∀ (l : List Int) (st : FetchState R) (rid : Int),
      dictGet (runFetches fetch st l).cache rid =
        (dictGet st.cache rid).or (if rid ∈ l then fetch rid else none) := by
  intro l
  induction l with
  | nil => intro st rid; simp [runFetches]
  | cons a rest ih =>
    intro st rid
    show dictGet (runFetches fetch (get_report fetch st a).2 rest).cache rid = _
    rw [ih]
    rcases hc : dictGet st.cache a with _ | r
    · rcases hf : fetch a with _ | r
      · simp only [get_report, hc, hf]
        by_cases hr : rid = a
        · subst hr; simp [hc, hf]
        · simp [List.mem_cons, hr]
      · simp only [get_report, hc, hf]
        by_cases hr : rid = a
        · subst hr; simp [dictGet_dictPut_self, hc, hf]
        · rw [show dictGet (dictPut st.cache a r) rid = dictGet st.cache rid from
            dictGet_dictPut_ne _ _ _ _ (fun h => hr h.symm)]
          simp [List.mem_cons, hr]
    · simp only [get_report, hc]
      by_cases hr : rid = a
      · subst hr; simp [hc]
      · simp [List.mem_cons, hr]

/-- Running the fan-out over pairwise-distinct, uncached ids issues exactly
one upstream call per id, in schedule order. -/
theorem runFetches_calls {R : Type _} (fetch : Int → Option R) :
    ∀ (l : List Int) (st : FetchState R), l.Nodup →
      (∀ rid ∈ l, dictGet st.cache rid = none) →
      (runFetches fetch st l).calls = st.calls ++ l := by
  intro l
  induction l with
  | nil => intro st _ _; simp [runFetches]
  | cons a rest ih =>
    intro st hnd hun
    have ha : dictGet st.cache a = none := hun a (List.mem_cons_self a rest)
    show (runFetches fetch (get_report fetch st a).2 rest).calls = _
    have hrest : ∀ rid ∈ rest, dictGet (get_report fetch st a).2.cache rid = none := by
      intro rid hr
      have hne : a ≠ rid := by
        rintro rfl; exact (List.nodup_cons.mp hnd).1 hr
      rcases hf : fetch a with _ | r
      · simpa [get_report, ha, hf] using hun rid (List.mem_cons_of_mem a hr)
      · simp only [get_report, ha, hf]
        rw [dictGet_dictPut_ne _ _ _ _ hne]
        exact hun rid (List.mem_cons_of_mem a hr)
    have hcalls : (get_report fetch st a).2.calls = st.calls ++ [a] := by
      rcases hf : fetch a with _ | r <;> simp [get_report, ha, hf]
    rw [ih _ (List.nodup_cons.mp hnd).2 hrest, hcalls, List.append_assoc,
      List.singleton_append]

/-- Membership in the mapping returned by the batch. -/
theorem mem_batch_result {R : Type _} (fetch : Int → Option R) (st : FetchState R)
    (ids : List Int) (sched : List Int → List Int) (rid : Int) (r : R) :
    (rid, r) ∈ (get_reports_batch_sched fetch st ids sched).1 ↔
      rid ∈ ids.dedup ∧
        dictGet (get_reports_batch_sched fetch st ids sched).2.cache rid = some r := by
  simp only [get_reports_batch_sched, List.mem_filterMap, Option.map_eq_some']
  constructor
  · rintro ⟨a, hmem, b, hb, heq⟩
    injection heq with h1 h2
    subst h1
    subst h2
    exact ⟨hmem, hb⟩
  · rintro ⟨hmem, hb⟩
    exact ⟨rid, hmem, r, hb, rfl⟩

/-- C1: a failed fetch never aborts its siblings — `batchGet` returns a
mapping containing exactly the requested ids resolvable from the cache after
all fetches complete; an id that is cached or whose fetch succeeds is present
regardless of the other ids, and an uncached id whose fetch failed is absent
rather than mapped to an error entry. -/
theorem C1_batch_partial_failure {R : Type} (fetch : Int → Option R) (st : FetchState R)
    (ids : List Int) (sched : List Int → List Int)
    (hs : ∀ l, List.Perm (sched l) l) (rid : Int) :
    ((∃ r, (rid, r) ∈ (get_reports_batch_sched fetch st ids sched).1) ↔
      rid ∈ ids ∧
        (dictGet (get_reports_batch_sched fetch st ids sched).2.cache rid).isSome) ∧
    (rid ∈ ids → (dictGet st.cache rid).isSome ∨ (fetch rid).isSome →
      ∃ r, (rid, r) ∈ (get_reports_batch_sched fetch st ids sched).1) ∧
    (dictGet st.cache rid = none → fetch rid = none →
      ¬∃ r, (rid, r) ∈ (get_reports_batch_sched fetch st ids sched).1) := by
  have hfinal :
      dictGet (get_reports_batch_sched fetch st ids sched).2.cache rid =
        (dictGet st.cache rid).or
          (if rid ∈ sched (ids.dedup.filter (fun i => (dictGet st.cache i).isNone))
            then fetch rid else none) := by
    simp only [get_reports_batch_sched]
    exact runFetches_cache fetch _ st rid
  have hmem_sched :
      rid ∈ sched (ids.dedup.filter (fun i => (dictGet st.cache i).isNone)) ↔
        rid ∈ ids.dedup ∧ (dictGet st.cache rid).isNone = true := by
    rw [(hs _).mem_iff, List.mem_filter]
  have hchar : ∀ r, (rid, r) ∈ (get_reports_batch_sched fetch st ids sched).1 ↔
      rid ∈ ids.dedup ∧
        dictGet (get_reports_batch_sched fetch st ids sched).2.cache rid = some r :=
    fun r => mem_batch_result fetch st ids sched rid r
  refine ⟨?_, ?_, ?_⟩
  · constructor
    · rintro ⟨r, hr⟩
      rcases (hchar r).mp hr with ⟨h1, h2⟩
      exact ⟨List.mem_dedup.mp h1, by rw [h2]; rfl⟩
    · rintro ⟨h1, h2⟩
      rcases Option.isSome_iff_exists.mp h2 with ⟨r, hr⟩
      exact ⟨r, (hchar r).mpr ⟨List.mem_dedup.mpr h1, hr⟩⟩
  · intro hin hres
    have hd : rid ∈ ids.dedup := List.mem_dedup.mpr hin
    rcases hcc : dictGet st.cache rid with _ | r
    · rcases hres with h | h
      · rw [hcc] at h; exact absurd h (by simp)
      · rcases Option.isSome_iff_exists.mp h with ⟨r, hr⟩
        refine ⟨r, (hchar r).mpr ⟨hd, ?_⟩⟩
        have hmem' : rid ∈ sched (ids.dedup.filter
            (fun i => (dictGet st.cache i).isNone)) :=
          hmem_sched.mpr ⟨hd, by rw [hcc]; rfl⟩
        rw [hfinal, hcc]
        simp [hmem', hr]
    · exact ⟨r, (hchar r).mpr ⟨hd, by rw [hfinal, hcc]; rfl⟩⟩
  · intro hcc hff
    rintro ⟨r, hr⟩
    rcases (hchar r).mp hr with ⟨_, h2⟩
    rw [hfinal, hcc] at h2
    by_cases hir : rid ∈ sched (ids.dedup.filter (fun i => (dictGet st.cache i).isNone))
    · simp [hir, hff] at h2
    · simp [hir] at h2

/-- Witness for C1: with an empty cache, fetching report 7 fails while
fetching report 8 succeeds; `batchGet([7,8])` contains 8 and not 7. -/
theorem C1_batch_partial_failure_witness :
    (∃ r, ((8 : Int), r) ∈ (get_reports_batch_sched
      (fun rid => if rid == 8 then some (100 : Nat) else none)
      ⟨[], []⟩ [7, 8] (fun l => l)).1) ∧
    ¬(∃ r, ((7 : Int), r) ∈ (get_reports_batch_sched
      (fun rid => if rid == 8 then some (100 : Nat) else none)
      ⟨[], []⟩ [7, 8] (fun l => l)).1) := by
  have h8 := C1_batch_partial_failure (R := Nat)
    (fun rid => if rid == 8 then some 100 else none) ⟨[], []⟩ [7, 8]
    (fun l => l) (fun l => List.Perm.refl l) 8
  have h7 := C1_batch_partial_failure (R := Nat)
    (fun rid => if rid == 8 then some 100 else none) ⟨[], []⟩ [7, 8]
    (fun l => l) (fun l => List.Perm.refl l) 7
  exact ⟨h8.2.1 (by decide) (Or.inr (by decide)), h7.2.2 (by decide) (by decide)⟩

/-- C2: `batchGet` issues at most one upstream fetch per distinct id not in
the cache, and none for ids already cached: the upstream calls added by a
batch contain each id at most once, and cached ids not at all. -/
theorem C2_batch_dedup {R : Type} (fetch : Int → Option R) (st : FetchState R)
    (ids : List Int) (sched : List Int → List Int)
    (hs : ∀ l, List.Perm (sched l) l) :
    ∃ newCalls : List Int,
      (get_reports_batch_sched fetch st ids sched).2.calls = st.calls ++ newCalls ∧
      (∀ rid, newCalls.count rid ≤ 1) ∧
      (∀ rid, (dictGet st.cache rid).isSome → newCalls.count rid = 0) := by
  set tf := ids.dedup.filter (fun i => (dictGet st.cache i).isNone) with htf
  have hnd : (sched tf).Nodup :=
    ((hs tf).nodup_iff).mpr ((ids.nodup_dedup).filter _)
  have hun : ∀ rid ∈ sched tf, dictGet st.cache rid = none := by
    intro rid hr
    have := (List.mem_filter.mp ((hs tf).mem_iff.mp hr)).2
    exact Option.not_isSome_iff_eq_none.mp (by simp_all)
  refine ⟨sched tf, ?_, ?_, ?_⟩
  · simp only [get_reports_batch_sched]
    exact runFetches_calls fetch _ st hnd hun
  · intro rid
    exact List.nodup_iff_count_le_one.mp hnd rid
  · intro rid hcc
    rw [List.count_eq_zero]
    intro hmem
    rw [hun rid hmem] at hcc
    exact absurd hcc (by simp)

/-- Witness for C2: `batchGet([5,5,5])` on an empty cache. -/
theorem C2_batch_dedup_witness :
    ∃ newCalls : List Int,
      (get_reports_batch_sched (fun _ => some (0 : Nat)) ⟨[], []⟩ [5, 5, 5]
        (fun l => l)).2.calls = (⟨[], []⟩ : FetchState Nat).calls ++ newCalls ∧
      (∀ rid, newCalls.count rid ≤ 1) ∧
      (∀ rid, (dictGet (⟨[], []⟩ : FetchState Nat).cache rid).isSome →
        newCalls.count rid = 0) :=
  C2_batch_dedup (fun _ => some (0 : Nat)) ⟨[], []⟩ [5, 5, 5] (fun l => l)
    (fun l => List.Perm.refl l)

/-- C3: `get(id)` returns a cached report without an upstream call and without
touching the state; on a miss it issues exactly one upstream call, caching and
returning the body on success, and on failure it raises leaving the cache
unmodified (no negative caching); after a successful `get(id)` a second
`get(id)` returns the identical report and issues no further upstream call. -/
theorem C3_get_semantics {R : Type} (fetch : Int → Option R) (st : FetchState R)
    (rid : Int) :
    (∀ r, dictGet st.cache rid = some r → get_report fetch st rid = (some r, st)) ∧
    (dictGet st.cache rid = none →
      (∀ r, fetch rid = some r →
        get_report fetch st rid =
          (some r, ⟨dictPut st.cache rid r, st.calls ++ [rid]⟩)) ∧
      (fetch rid = none →
        get_report fetch st rid = (none, ⟨st.cache, st.calls ++ [rid]⟩))) ∧
    (∀ r₁ st₁, get_report fetch st rid = (some r₁, st₁) →
      get_report fetch st₁ rid = (some r₁, st₁)) := by
  refine ⟨?_, ?_, ?_⟩
  · intro r h; simp [get_report, h]
  · intro hc
    exact ⟨fun r hf => by simp [get_report, hc, hf],
      fun hf => by simp [get_report, hc, hf]⟩
  · intro r₁ st₁ h
    rcases hc : dictGet st.cache rid with _ | r
    · rcases hf : fetch rid with _ | r
      · simp [get_report, hc, hf] at h
      · simp only [get_report, hc, hf, Prod.mk.injEq, Option.some.injEq] at h
        rcases h with ⟨h1, h2⟩
        have hlook : dictGet st₁.cache rid = some r₁ := by
          rw [← h2, ← h1]
          exact dictGet_dictPut_self st.cache rid r
        simp [get_report, hlook]
    · simp only [get_report, hc, Prod.mk.injEq, Option.some.injEq] at h
      rcases h with ⟨h1, h2⟩
      have : dictGet st₁.cache rid = some r₁ := by rw [← h2, ← h1]; exact hc
      simp [get_report, this]

/-- Witness for C3: a miss that fetches and caches id 3, then a hit. -/
theorem C3_get_semantics_witness :
    get_report (fun _ => some (5 : Nat)) ⟨[], []⟩ 3 =
      (some 5, ⟨[((3 : Int), (5 : Nat))], [3]⟩) ∧
    get_report (fun _ => some (5 : Nat)) ⟨[((3 : Int), (5 : Nat))], [3]⟩ 3 =
      (some 5, ⟨[(3, 5)], [3]⟩) := by
  have h := C3_get_semantics (fun _ => some (5 : Nat)) ⟨[], []⟩ 3
  have h1 := (h.2.1 (by decide)).1 5 rfl
  exact ⟨h1, h.2.2 5 _ h1⟩

/-! ## Usage aggregation (app/services/usage_service.py)

Python exceptions are modelled with `Except`; a report JSON body is a Python
dict from field name to scalar value, cached without any shape validation. -/

/-- JSON scalar values appearing in report bodies. -/
inductive JVal where
  | str (s : String)
  | int (n : Int)
deriving DecidableEq

/-- A decoded report JSON body. -/
abbrev ReportData := List (String × JVal)

/-- A message as decoded from `GET /messages/current-period`. -/
structure Message where
  id : Int
  timestamp : String
  text : String
  report_id : Option Int
deriving DecidableEq

/-- The `UsageItem` pydantic model (app/models/schemas.py). -/
structure UsageItem where
  message_id : Int
  timestamp : String
  report_name : Option String
  credits_used : ℚ
deriving DecidableEq

/-- Failure modes of the upstream messages call: non-2xx status (raised by
`raise_for_status`), transport failure, or a body that fails JSON decoding. -/
inductive FetchFailure where
  | non2xx
  | transport
  | jsonDecode
deriving DecidableEq

/-- Python exceptions escaping `get_usage_data`: the propagated failure of
the messages fetch, an unhandled `KeyError` on an unvalidated report body, or
a type error on a wrongly-typed field. -/
inductive AggError where
  | upstream (f : FetchFailure)
  | keyError (k : String)
  | validationError
  | invalidOperation
deriving DecidableEq

/-- Embedding of `OrbitalAPIClient.get_messages`: `.error` is a raised
upstream failure; `.ok body` a decoded JSON object, where `body = some msgs`
models an object with a "messages" key and `body = none` one without, for
which `data.get("messages", [])` yields the empty list. -/
def get_messages (resp : Except FetchFailure (Option (List Message))) :
    Except AggError (List Message) :=
  match resp with
  | .error f => .error (.upstream f)
  | .ok body => .ok (body.getD [])

/-- Python truthiness of a `dict | None` value: `None` and the empty dict are
falsy. -/
def pyTruthy (report : Option ReportData) : Bool :=
  match report with
  | some r => !r.isEmpty
  | none => false

/-- Embedding of `get_credits_for_message(message, report)`: `if report:`
selects the authoritative report cost via the unguarded `credit_cost` access
(a `KeyError` when the key is absent), else the text formula. -/
def get_credits_for_message (message : Message) (report : Option ReportData) :
    Except AggError ℚ :=
  if pyTruthy report then
    match dictGet (report.getD []) "credit_cost" with
    | some (JVal.int n) => .ok (get_report_credits n)
    | some (JVal.str _) => .error .invalidOperation
    | none => .error (.keyError "credit_cost")
  else
    .ok (calculate_message_credits message.text)

/-- The `report_name` argument of the `UsageItem` constructor:
`report["name"] if report else None` (unguarded key access), with the
pydantic model rejecting a non-string value. -/
def reportNameField (report : Option ReportData) :
    Except AggError (Option String) :=
  if pyTruthy report then
    match dictGet (report.getD []) "name" with
    | some (JVal.str s) => .ok (some s)
    | some (JVal.int _) => .error .validationError
    | none => .error (.keyError "name")
  else
    .ok none

/-- Python truthiness of `msg.get("report_id")`: falsy when the field is
absent or `None`, and also when it equals 0. -/
def reportIdTruthy (m : Message) : Bool :=
  match m.report_id with
  | some rid => rid != 0
  | none => false

/-- Embedding of the comprehension
`[msg["report_id"] for msg in messages if msg.get("report_id")]`. -/
def collectReportIds (messages : List Message) : List Int :=
  (messages.filter reportIdTruthy).map (fun m => m.report_id.getD 0)

/-- Embedding of `reports_map.get(report_id) if report_id else None`. -/
def resolveReport (reports_map : List (Int × ReportData)) (msg : Message) :
    Option ReportData :=
  match msg.report_id with
  | some rid => if rid != 0 then dictGet reports_map rid else none
  | none => none

/-- One iteration of the message loop of `get_usage_data`: resolve the
report, compute credits, build the `UsageItem`. -/
def processMessage (reports_map : List (Int × ReportData)) (msg : Message) :
    Except AggError UsageItem := do
  let report := resolveReport reports_map msg
  let credits ← get_credits_for_message msg report
  let name? ← reportNameField report
  pure ⟨msg.id, msg.timestamp, name?, credits⟩

/-- Embedding of `get_usage_data(api_client)`: fetch the messages (a raised
failure aborts the aggregation), collect the truthy report ids, batch fetch
them, then build the usage items in message order. -/
def get_usage_data (fetch : Int → Option ReportData) (st : FetchState ReportData)
    (resp : Except FetchFailure (Option (List Message)))
    (sched : List Int → List Int) :
    Except AggError (List UsageItem) × FetchState ReportData :=
  match get_messages resp with
  | .error e => (.error e, st)
  | .ok messages =>
    let report_ids := collectReportIds messages
    let res := get_reports_batch_sched fetch st report_ids sched
    (messages.mapM (processMessage res.1), res.2)

/-- C6 counterexample: a message with the non-null `report_id = 0` is not
included in the batch request — Python truthiness drops 0. -/
theorem C6_zero_id_counterexample :
    (Message.mk 1 "2024-01-01" "hello" (some 0)).report_id = some 0 ∧
      collectReportIds [Message.mk 1 "2024-01-01" "hello" (some 0)] = [] :=
  ⟨rfl, rfl⟩

/-- C6 amended: the aggregation collects exactly the non-null and non-zero
`report_id` values of the fetched messages as the batch request. -/
theorem C6_collect_ids_amended (messages : List Message) (rid : Int) :
    rid ∈ collectReportIds messages ↔
      ∃ m ∈ messages, m.report_id = some rid ∧ rid ≠ 0 := by
  simp only [collectReportIds, List.mem_map, List.mem_filter]
  constructor
  · rintro ⟨m, ⟨hm, ht⟩, hv⟩
    rcases hr : m.report_id with _ | v
    · rw [reportIdTruthy, hr] at ht
      cases ht
    · rw [reportIdTruthy, hr] at ht
      rw [hr] at hv
      simp only [Option.getD_some] at hv
      subst hv
      exact ⟨m, hm, hr, by simpa using ht⟩
  · rintro ⟨m, hm, hr, hnz⟩
    refine ⟨m, ⟨hm, ?_⟩, by rw [hr]; rfl⟩
    rw [reportIdTruthy, hr]
    simpa using hnz

/-- Witness for C6 amended: a non-zero id is collected. -/
theorem C6_collect_ids_witness :
    (5 : Int) ∈ collectReportIds [Message.mk 1 "t" "x" (some 5)] :=
  (C6_collect_ids_amended [Message.mk 1 "t" "x" (some 5)] 5).mpr
    ⟨Message.mk 1 "t" "x" (some 5), List.mem_singleton.mpr rfl, rfl, by decide⟩

/-- C7: a message whose truthy `report_id` is absent from the batch result is
billed as if it had no report: text-formula credits, no `report_name`, and the
item is produced successfully — the report failure is not escalated. -/
theorem C7_fallback_on_missing_report (reports_map : List (Int × ReportData))
    (msg : Message) (rid : Int) (hid : msg.report_id = some rid) (hnz : rid ≠ 0)
    (habs : dictGet reports_map rid = none) :
    processMessage reports_map msg =
      .ok ⟨msg.id, msg.timestamp, none, calculate_message_credits msg.text⟩ := by
  have hres : resolveReport reports_map msg = none := by
    rw [resolveReport, hid]
    simp [hnz, habs]
  simp [processMessage, hres, get_credits_for_message, reportNameField, pyTruthy,
    Bind.bind, Except.bind, Pure.pure, Except.pure]

/-- Witness for C7: report 7 was requested but its fetch failed, so it is
absent from the batch result. -/
theorem C7_fallback_witness :
    processMessage ([] : List (Int × ReportData)) ⟨1, "t", "hi", some 7⟩ =
      .ok ⟨1, "t", none, calculate_message_credits "hi"⟩ :=
  C7_fallback_on_missing_report [] ⟨1, "t", "hi", some 7⟩ 7 rfl (by decide) rfl

theorem processMessage_message_id (reports_map : List (Int × ReportData))
    (msg : Message) (it : UsageItem)
    (h : processMessage reports_map msg = .ok it) : it.message_id = msg.id := by
  simp only [processMessage] at h
  rcases hc : get_credits_for_message msg (resolveReport reports_map msg) with e | q <;>
    rw [hc] at h
  · cases h
  · rcases hn : reportNameField (resolveReport reports_map msg) with e | nm <;>
      rw [hn] at h
    · cases h
    · cases h
      rfl

theorem mapM_ok_shape {ε α β γ : Type _} (f : α → Except ε β) (g : β → γ) (h : α → γ)
    (hf : ∀ a b, f a = .ok b → g b = h a) :
    ∀ (l : List α) (out : List β), l.mapM f = .ok out → out.map g = l.map h := by
  intro l
  induction l with
  | nil =>
    intro out hout
    rw [List.mapM_nil] at hout
    cases hout
    rfl
  | cons a rest ih =>
    intro out hout
    rw [List.mapM_cons] at hout
    rcases hfa : f a with e | b <;> rw [hfa] at hout
    · cases hout
    · rcases hrest : rest.mapM f with e | bs <;> rw [hrest] at hout
      · cases hout
      · cases hout
        simp only [List.map_cons]
        rw [hf a b hfa, ih bs hrest]

/-- C8: on success the aggregation lists `message_id`s in exactly the fetched
message order, for every completion schedule of the concurrent report
fetches; moreover the aggregation result does not depend on the schedule. -/
theorem C8_output_order (fetch : Int → Option ReportData)
    (st : FetchState ReportData) (messages : List Message)
    (sched : List Int → List Int) (hs : ∀ l, List.Perm (sched l) l) :
    (∀ items, (get_usage_data fetch st (.ok (some messages)) sched).1 = .ok items →
      items.map (fun it => it.message_id) = messages.map (fun m => m.id)) ∧
    (get_usage_data fetch st (.ok (some messages)) sched).1 =
      (get_usage_data fetch st (.ok (some messages)) (fun l => l)).1 := by
  constructor
  · intro items hitems
    simp only [get_usage_data, get_messages, Option.getD_some] at hitems
    exact mapM_ok_shape _ (fun it => it.message_id) (fun m => m.id)
      (fun m it => processMessage_message_id _ m it) messages items hitems
  · have hcache : ∀ rid : Int,
        dictGet (runFetches fetch st (sched ((collectReportIds messages).dedup.filter
          (fun i => (dictGet st.cache i).isNone)))).cache rid =
        dictGet (runFetches fetch st ((collectReportIds messages).dedup.filter
          (fun i => (dictGet st.cache i).isNone))).cache rid := by
      intro rid
      rw [runFetches_cache, runFetches_cache]
      by_cases h : rid ∈ (collectReportIds messages).dedup.filter
          (fun i => (dictGet st.cache i).isNone)
      · rw [if_pos ((hs _).mem_iff.mpr h), if_pos h]
      · rw [if_neg (fun hc => h ((hs _).mem_iff.mp hc)), if_neg h]
    have hmap : (get_reports_batch_sched fetch st (collectReportIds messages) sched).1 =
        (get_reports_batch_sched fetch st (collectReportIds messages) (fun l => l)).1 := by
      simp only [get_reports_batch_sched]
      congr 1
      funext rid
      rw [hcache rid]
    simp only [get_usage_data, get_messages, Option.getD_some]
    rw [hmap]

/-- Witness for C8 with two report-free messages and the in-order schedule. -/
theorem C8_output_order_witness :
    ([⟨1, "t", none, calculate_message_credits "hi"⟩,
      ⟨2, "u", none, calculate_message_credits "yo"⟩] : List UsageItem).map
        (fun it => it.message_id) =
      ([⟨1, "t", "hi", none⟩, ⟨2, "u", "yo", none⟩] : List Message).map
        (fun m => m.id) :=
  (C8_output_order (fun _ => none) ⟨[], []⟩
    [⟨1, "t", "hi", none⟩, ⟨2, "u", "yo", none⟩] (fun l => l)
    (fun l => List.Perm.refl l)).1 _ rfl

/-- C9: a failed messages fetch — non-2xx, transport failure, or JSON decode
failure — makes the whole aggregation fail with the propagated upstream error;
no partial result is produced and the cache state is untouched. -/
theorem C9_messages_fetch_failure (fetch : Int → Option ReportData)
    (st : FetchState ReportData) (sched : List Int → List Int)
    (f : FetchFailure) :
    get_usage_data fetch st (.error f) sched = (.error (.upstream f), st) :=
  rfl

/-- C10 counterexample: the empty JSON object, a 2xx body missing both keys,
is cached, but the aggregation does not fail on it: `if report:` is falsy for
an empty dict, so the message is billed by the text formula instead of
raising a key-lookup error. -/
theorem C10_empty_body_counterexample :
    (get_usage_data (fun _ => some ([] : ReportData)) ⟨[], []⟩
        (.ok (some [⟨1, "t", "hi", some 7⟩])) (fun l => l)).1 =
      .ok [⟨1, "t", none, calculate_message_credits "hi"⟩] ∧
    dictGet (get_usage_data (fun _ => some ([] : ReportData)) ⟨[], []⟩
        (.ok (some [⟨1, "t", "hi", some 7⟩])) (fun l => l)).2.cache 7 =
      some [] :=
  ⟨rfl, rfl⟩

/-- C10 amended: a 2xx report body is cached and returned exactly as
delivered, with no shape validation; a message resolving to a non-empty
cached body missing `credit_cost` fails the aggregation step with
`KeyError("credit_cost")`, and one whose body has `credit_cost` but no `name`
fails it with `KeyError("name")` — a key-lookup error, not an upstream error;
an empty body, however, is falsy in `if report:` and degrades to the text
formula. -/
theorem C10_unvalidated_body_amended :
    (∀ (R : Type) (fetch : Int → Option R) (st : FetchState R) (rid : Int) (r : R),
      dictGet st.cache rid = none → fetch rid = some r →
      (get_report fetch st rid).1 = some r ∧
        dictGet (get_report fetch st rid).2.cache rid = some r) ∧
    (∀ (reports_map : List (Int × ReportData)) (msg : Message) (rid : Int)
        (body : ReportData),
      msg.report_id = some rid → rid ≠ 0 → dictGet reports_map rid = some body →
      body ≠ [] → dictGet body "credit_cost" = none →
      processMessage reports_map msg = .error (.keyError "credit_cost")) ∧
    (∀ (reports_map : List (Int × ReportData)) (msg : Message) (rid : Int)
        (body : ReportData) (n : Int),
      msg.report_id = some rid → rid ≠ 0 → dictGet reports_map rid = some body →
      dictGet body "credit_cost" = some (JVal.int n) → dictGet body "name" = none →
      processMessage reports_map msg = .error (.keyError "name")) := by
  refine ⟨?_, ?_, ?_⟩
  · intro R fetch st rid r hc hf
    constructor
    · simp [get_report, hc, hf]
    · simp [get_report, hc, hf, dictGet_dictPut_self]
  · intro reports_map msg rid body hid hnz hres hne hcc
    have hr : resolveReport reports_map msg = some body := by
      rw [resolveReport, hid]
      simp [hnz, hres]
    have ht : pyTruthy (some body) = true := by
      rcases body with _ | ⟨p, rest⟩
      · exact absurd rfl hne
      · rfl
    simp [processMessage, hr, get_credits_for_message, ht, hcc, Bind.bind, Except.bind]
  · intro reports_map msg rid body n hid hnz hres hcc hname
    have hr : resolveReport reports_map msg = some body := by
      rw [resolveReport, hid]
      simp [hnz, hres]
    have ht : pyTruthy (some body) = true := by
      rcases body with _ | ⟨p, rest⟩
      · rw [dictGet] at hcc
        cases hcc
      · rfl
    simp [processMessage, hr, get_credits_for_message, reportNameField, ht, hcc, hname,
      Bind.bind, Except.bind, Functor.map, Except.map]

/-- Witness for C10 amended: a cached body carrying only an `id` field makes
the aggregation step raise `KeyError("credit_cost")`. -/
theorem C10_unvalidated_body_witness :
    processMessage [((7 : Int), [("id", JVal.int 7)])] ⟨1, "t", "hi", some 7⟩ =
      .error (.keyError "credit_cost") :=
  C10_unvalidated_body_amended.2.1 [((7 : Int), [("id", JVal.int 7)])]
    ⟨1, "t", "hi", some 7⟩ 7 [("id", JVal.int 7)] rfl (by decide) rfl
    (by decide) rfl

end OrbitalUsage
